import Mathlib

/-!
Verification of `src/smartdataloader.py` (class `SmartDataLoader`).

The Python class is shallowly embedded below.  Token ids are `Int`, encoded
documents are `List Int`, and the corpus is a `List (List Int)`.  Fallible
Python operations (the tuple-unpacking in `_shuffle_vocab_data`, list/tuple
indexing in `__iter__`, and the division in `__len__`) are modelled with
`Except String`, carrying the Python exception text.
-/

/-- Modelled from the spec: the external `Vocabulary` collaborator
(`vocabulary.py` is not part of this repository's sources).  Per the spec it
exposes "an ordered collection of encoded token sequences" (`docs_tokens_encoded`)
and "a pad-token id" (`PAD_TOKEN`). -/
structure Vocabulary where
  docs_tokens_encoded : List (List Int)
  PAD_TOKEN : Int
deriving Repr, DecidableEq

/-- One step of a linear congruential generator; stands in for the
pseudo-random stream consumed by `np.random.shuffle`. -/
def lcgNext (s : Nat) : Nat :=
  (s * 1103515245 + 12345) % 4294967296

/-- Fuel-indexed selection shuffle: repeatedly pick the element at a
pseudo-random position and move it to the front of the result.  Each step
consumes one unit of fuel, and the picked position depends only on the
generator state and the current length. -/
def shuffleGo {α : Type} : Nat → Nat → List α → List α
  | _, 0, _ => []
  | _, _ + 1, [] => []
  | state, fuel + 1, a :: rest =>
    let k := state % (a :: rest).length
    (a :: rest).getD k a :: shuffleGo (lcgNext state) fuel ((a :: rest).eraseIdx k)

/-- Modelled from the spec: `np.random.seed(seed)` followed by
`np.random.shuffle(l)` — "a deterministic permutation of the paired list",
where "the same seed must always produce the same permutation for the same N"
(the permutation chosen depends only on the seed and the list length).
`vocabulary.py`-independent numpy internals (MT19937) are replaced by an LCG;
every claim below is insensitive to which permutation a given seed denotes. -/
def npShuffle {α : Type} (seed : Nat) (l : List α) : List α :=
  shuffleGo (lcgNext (seed + 17)) l.length l

/-- Embeds `SmartDataLoader._shuffle_vocab_data` (src/smartdataloader.py:39-52):
zip the input and output corpora (Python `zip` silently truncates to the
shorter list), shuffle the joined list, and unzip.  The final
`a, b = zip(*joined)` raises `ValueError` when `joined` is empty, because
`zip()` of no arguments yields no values to unpack. -/
def shuffleVocabData (random_seed : Nat) (inDocs outDocs : List (List Int)) :
    Except String (List (List Int) × List (List Int)) :=
  let joined := List.zip inDocs outDocs
  let shuffled := npShuffle random_seed joined
  if shuffled.isEmpty then
    Except.error "ValueError: not enough values to unpack (expected 2, got 0)"
  else
    Except.ok (shuffled.map Prod.fst, shuffled.map Prod.snd)

/-- The state of a constructed `SmartDataLoader`: the (shuffled) private
corpus copies, the batch size, `n_sentences` and `PAD_TOKEN`. -/
structure SmartDataLoader where
  input_docs : List (List Int)
  output_docs : List (List Int)
  batch_size : Int
  n_sentences : Nat
  PAD_TOKEN : Int
deriving Repr, DecidableEq

/-- Embeds `SmartDataLoader.__init__` (src/smartdataloader.py:12-37).  The two
vocabularies are deep-copied; when BOTH override lists are supplied
(`is not None`), they replace the copies' `docs_tokens_encoded`.  Note two
source facts this embedding preserves: `self.n_sentences` is computed from the
caller's `input_vocab` parameter (line 34), NOT from the possibly-overridden
`self.input_vocab`; and `self.PAD_TOKEN` comes from `input_vocab.PAD_TOKEN`
(line 37), never from the output vocabulary. -/
def SmartDataLoader.mk? (input_vocab output_vocab : Vocabulary) (batch_size : Int)
    (input_docs_tokens_encoded output_docs_tokens_encoded : Option (List (List Int)))
    (random_seed : Nat) : Except String SmartDataLoader :=
  let inDocs :=
    match input_docs_tokens_encoded, output_docs_tokens_encoded with
    | some i, some _ => i
    | _, _ => input_vocab.docs_tokens_encoded
  let outDocs :=
    match input_docs_tokens_encoded, output_docs_tokens_encoded with
    | some _, some o => o
    | _, _ => output_vocab.docs_tokens_encoded
  match shuffleVocabData random_seed inDocs outDocs with
  | Except.error e => Except.error e
  | Except.ok (si, so) =>
      Except.ok
        { input_docs := si
          output_docs := so
          batch_size := batch_size
          n_sentences := input_vocab.docs_tokens_encoded.length
          PAD_TOKEN := input_vocab.PAD_TOKEN }

/-- Python `list.insert(-1, x)`: insert `x` immediately before the last
element; on an empty list, index `-1` clamps to `0`, so `x` is appended. -/
def insertNeg1 (x : Int) : List Int → List Int
  | [] => [x]
  | [a] => [x, a]
  | a :: b :: rest => a :: insertNeg1 x (b :: rest)

/-- The padding loop of `_build_tensor` (src/smartdataloader.py:89-90):
`for _ in range(pads_needed): doc.insert(-1, PAD_TOKEN)`. -/
def padDoc (pad : Int) : Nat → List Int → List Int
  | 0, l => l
  | k + 1, l => padDoc pad k (insertNeg1 pad l)

/-- The guarded padding of one document in `_build_tensor`
(src/smartdataloader.py:87-91): pad only when the length is strictly below
the batch maximum. -/
def padsApplied (pad : Int) (maxLen : Nat) (l : List Int) : List Int :=
  if l.length < maxLen then padDoc pad (maxLen - l.length) l else l

/-- The first `for` loop of `_build_tensor` (src/smartdataloader.py:73-78)
restricted to the input side: running maximum of the input lengths. -/
def inputMaxLen (doc_pairs : List (List Int × List Int)) : Nat :=
  doc_pairs.foldl (fun m p => max m p.1.length) 0

/-- The first `for` loop of `_build_tensor` restricted to the output side. -/
def outputMaxLen (doc_pairs : List (List Int × List Int)) : Nat :=
  doc_pairs.foldl (fun m p => max m p.2.length) 0

/-- Padding of one `(input, output)` pair against the batch maxima. -/
def padPair (pad : Int) (imax omax : Nat) (p : List Int × List Int) :
    List Int × List Int :=
  (padsApplied pad imax p.1, padsApplied pad omax p.2)

/-- The second `for` loop of `_build_tensor` (src/smartdataloader.py:82-101):
each pair of the batch, padded to the two batch maxima. -/
def buildTensorPadded (pad : Int) (doc_pairs : List (List Int × List Int)) :
    List (List Int × List Int) :=
  doc_pairs.map (padPair pad (inputMaxLen doc_pairs) (outputMaxLen doc_pairs))

/-- Embeds `np.transpose` on the rectangular array `np.array(rows)`
(src/smartdataloader.py:104-105): entry `(j, i)` of the result is entry
`(i, j)` of the input; numpy takes the column count from the first row. -/
def npTranspose (rows : List (List Int)) : List (List Int) :=
  (List.range (rows.headD []).length).map (fun j => rows.map (fun row => row.getD j 0))

/-- Embeds `SmartDataLoader._build_tensor` (src/smartdataloader.py:56-107): pad the
batch on each side independently, then transpose both sides. -/
def buildTensor (pad : Int) (doc_pairs : List (List Int × List Int)) :
    List (List Int) × List (List Int) :=
  let padded := buildTensorPadded pad doc_pairs
  (npTranspose (padded.map Prod.fst), npTranspose (padded.map Prod.snd))

/-- The loop of `SmartDataLoader.__iter__` (src/smartdataloader.py:115-124)
over a list of sentence indices, carrying the `batch` counter and the
`collected` pending list.  Each step fetches
`docs_tokens_encoded[sent_idx]` on both sides (raising `IndexError` past the
end of the shuffled tuples), appends the pair, and emits a batch exactly when
the counter reaches `batch_size`.  Batches are returned un-tensorised; the
pending remainder at the end of the loop is discarded, as in the source. -/
def iterGo (inDocs outDocs : List (List Int)) (batch_size : Int) :
    List Nat → Int → List (List Int × List Int) →
    Except String (List (List (List Int × List Int)))
  | [], _, _ => Except.ok []
  | sent_idx :: rest, batch, collected =>
    match inDocs.get? sent_idx, outDocs.get? sent_idx with
    | some a, some b =>
      if batch + 1 = batch_size then
        match iterGo inDocs outDocs batch_size rest 0 [] with
        | Except.ok more => Except.ok ((collected ++ [(a, b)]) :: more)
        | Except.error e => Except.error e
      else
        iterGo inDocs outDocs batch_size rest (batch + 1) (collected ++ [(a, b)])
    | _, _ => Except.error "IndexError: tuple index out of range"

/-- One full pass of `__iter__`, as the list of raw (pre-tensor) batches:
`for sent_idx in range(self.n_sentences)` with `batch = 0`, `collected = []`. -/
def SmartDataLoader.iterRawBatches (sdl : SmartDataLoader) :
    Except String (List (List (List Int × List Int))) :=
  iterGo sdl.input_docs sdl.output_docs sdl.batch_size
    (List.range sdl.n_sentences) 0 []

/-- One full pass of `__iter__` with `_build_tensor` applied at each `yield`
(src/smartdataloader.py:122). -/
def SmartDataLoader.iterTensors (sdl : SmartDataLoader) :
    Except String (List (List (List Int) × List (List Int))) :=
  Except.map (List.map (buildTensor sdl.PAD_TOKEN)) sdl.iterRawBatches

/-- Python floor division `a // b` (`Int.fdiv` rounds toward negative
infinity, as Python does), raising `ZeroDivisionError` on a zero divisor. -/
def pyFloorDiv (a b : Int) : Except String Int :=
  if b = 0 then Except.error "ZeroDivisionError: integer division or modulo by zero"
  else Except.ok (Int.fdiv a b)

/-- Embeds `SmartDataLoader.__len__` (src/smartdataloader.py:127-133):
`self.n_sentences // self.batch_size`. -/
def SmartDataLoader.len? (sdl : SmartDataLoader) : Except String Int :=
  pyFloorDiv (sdl.n_sentences : Int) sdl.batch_size

/-- Runs `__init__` followed by one full iteration pass, with the caller's two
vocabulary objects carried through explicitly.  Because `__init__` stores
`deepcopy(input_vocab)` and `deepcopy(output_vocab)`
(src/smartdataloader.py:23-24), the shuffle and the in-place padding act on
the loader's private copies only, so the caller's objects come back exactly
as they went in; this definition records them alongside the emitted tensors
so that that frame property can be stated. -/
def constructAndIterate (input_vocab output_vocab : Vocabulary) (batch_size : Int)
    (random_seed : Nat) :
    Except String ((Vocabulary × Vocabulary) × List (List (List Int) × List (List Int))) :=
  match SmartDataLoader.mk? input_vocab output_vocab batch_size none none random_seed with
  | Except.error e => Except.error e
  | Except.ok sdl =>
    match sdl.iterTensors with
    | Except.error e => Except.error e
    | Except.ok ts => Except.ok ((input_vocab, output_vocab), ts)

/-- The caller-owned override lists, carried as explicit mutable state: when
both override lists are supplied, `__init__` stores them WITHOUT copying
(`self.input_vocab.docs_tokens_encoded = input_docs_tokens_encoded`,
src/smartdataloader.py:29-30), so the inner lists padded in place by
`_build_tensor` are the caller's own list objects. -/
structure CallerLists where
  ins : List (List Int)
  outs : List (List Int)
deriving Repr, DecidableEq

/-- Embeds `_build_tensor` acting on the caller-heap: the batch holds indices into
the caller's override lists; maxima are computed from the current heap
values, each fetched document is padded in place (`list.insert(-1, PAD)`
mutates the caller's inner list), and the transposed tensors are returned. -/
def buildTensorMut (pad : Int) (st : CallerLists) (idxs : List Nat) :
    CallerLists × (List (List Int) × List (List Int)) :=
  let pairs := idxs.map (fun i => (st.ins.getD i [], st.outs.getD i []))
  let imax := inputMaxLen pairs
  let omax := outputMaxLen pairs
  let newIns := idxs.foldl (fun acc i => acc.set i (padsApplied pad imax (acc.getD i []))) st.ins
  let newOuts := idxs.foldl (fun acc i => acc.set i (padsApplied pad omax (acc.getD i []))) st.outs
  (⟨newIns, newOuts⟩, buildTensor pad pairs)

/-- The `__iter__` loop in the override setting, threading the caller-heap:
`perm` maps shuffled position to caller index (the shuffle permutes the
zipped pairs, i.e. the identities of the caller's inner lists), fetching past
the end of the shuffled tuple raises `IndexError`, and each emitted batch
pads the caller's lists in place via `buildTensorMut`. -/
def runGo (pad : Int) (batch_size : Int) (perm : List Nat) :
    List Nat → Int → List Nat → CallerLists →
    Except String (CallerLists × List (List (List Int) × List (List Int)))
  | [], _, _, st => Except.ok (st, [])
  | s :: rest, batch, collectedIdx, st =>
    match perm.get? s with
    | none => Except.error "IndexError: tuple index out of range"
    | some j =>
      if batch + 1 = batch_size then
        match buildTensorMut pad st (collectedIdx ++ [j]) with
        | (st2, t) =>
          match runGo pad batch_size perm rest 0 [] st2 with
          | Except.ok (st3, ts) => Except.ok (st3, t :: ts)
          | Except.error e => Except.error e
      else
        runGo pad batch_size perm rest (batch + 1) (collectedIdx ++ [j]) st

/-- Runs `__init__` with both override lists supplied, followed by one full
iteration pass, returning the final state of the caller's override lists
next to the emitted tensors.  Mirrors the source: the zip truncates to the
shorter override list, the shuffle permutes those pairs (modelled as a
permutation of their indices, since the pair at index `i` aliases the
caller's inner lists `ins[i]`/`outs[i]`), `n_sentences` is the length of the
caller's `input_vocab.docs_tokens_encoded` (line 34), and an empty zip makes
the constructor's `zip(*joined)` unpacking raise `ValueError`. -/
def runWithOverrides (input_vocab output_vocab : Vocabulary) (batch_size : Int)
    (input_docs_tokens_encoded output_docs_tokens_encoded : List (List Int))
    (random_seed : Nat) :
    Except String (CallerLists × List (List (List Int) × List (List Int))) :=
  let m := min input_docs_tokens_encoded.length output_docs_tokens_encoded.length
  if m = 0 then
    Except.error "ValueError: not enough values to unpack (expected 2, got 0)"
  else
    let perm := npShuffle random_seed (List.range m)
    runGo input_vocab.PAD_TOKEN batch_size perm
      (List.range input_vocab.docs_tokens_encoded.length) 0 []
      ⟨input_docs_tokens_encoded, output_docs_tokens_encoded⟩

/-- The appended-at-the-end padding shape that the in-place
`insert(-1, PAD)` loop actually produces: all `k` pad tokens sit immediately
before the final original token (or fill the document when it was empty). -/
def padBeforeLast (pad : Int) (k : Nat) : List Int → List Int
  | [] => List.replicate k pad
  | a :: rest =>
      (a :: rest).dropLast ++ List.replicate k pad ++ [(a :: rest).getLast (List.cons_ne_nil a rest)]

/-- The batch chunking `__iter__` performs, in closed form: chunk `i` of the
result is `l[i*bs : i*bs+bs]`, and the trailing `l.length % bs` elements are
dropped. -/
def chunksGo {α : Type} (bs : Nat) : Nat → List α → List (List α)
  | 0, _ => []
  | k + 1, l => l.take bs :: chunksGo bs k (l.drop bs)

/-- Full-batch chunking: `l.length / bs` chunks of size `bs`, remainder
dropped. -/
def chunkDrop {α : Type} (bs : Nat) (l : List α) : List (List α) :=
  chunksGo bs (l.length / bs) l

/-- Intermediate closed form for the `__iter__` loop in flight: `col` is the
pending batch, `l` the remaining (already fetched) pairs. -/
def emitFrom {α : Type} (bs : Nat) (col : List α) (l : List α) : List (List α) :=
  if col.length + l.length < bs then []
  else (col ++ l.take (bs - col.length)) :: chunkDrop bs (l.drop (bs - col.length))

/-! ## Lemmas about the shuffle model -/

theorem getD_cons_eraseIdx_perm {α : Type} (d : α) :
    ∀ (l : List α) (k : Nat), k < l.length →
      List.Perm (l.getD k d :: l.eraseIdx k) l := by
  intro l
  induction l with
  | nil => intro k hk; simp at hk
  | cons a t ih =>
    intro k hk
    cases k with
    | zero => simp
    | succ k =>
      rw [List.getD_cons_succ, List.eraseIdx_cons_succ]
      have hk' : k < t.length := by simpa using hk
      exact List.Perm.trans (List.Perm.swap a (t.getD k d) (t.eraseIdx k))
        ((ih k hk').cons a)

theorem shuffleGo_perm {α : Type} :
    ∀ (fuel state : Nat) (l : List α), l.length ≤ fuel →
      List.Perm (shuffleGo state fuel l) l := by
  intro fuel
  induction fuel with
  | zero =>
    intro state l hl
    have : l = [] := List.eq_nil_of_length_eq_zero (by omega)
    subst this
    simp [shuffleGo]
  | succ fuel ih =>
    intro state l hl
    cases l with
    | nil => simp [shuffleGo]
    | cons a rest =>
      have hpos : 0 < (a :: rest).length := by simp
      have hk : state % (a :: rest).length < (a :: rest).length := Nat.mod_lt _ hpos
      have herase : ((a :: rest).eraseIdx (state % (a :: rest).length)).length ≤ fuel := by
        rw [List.length_eraseIdx]
        simp only [hk, if_true]
        simp at hl ⊢
        omega
      show List.Perm ((a :: rest).getD (state % (a :: rest).length) a ::
          shuffleGo (lcgNext state) fuel ((a :: rest).eraseIdx (state % (a :: rest).length)))
        (a :: rest)
      exact ((ih (lcgNext state) _ herase).cons _).trans
        (getD_cons_eraseIdx_perm a (a :: rest) _ hk)

theorem npShuffle_perm {α : Type} (seed : Nat) (l : List α) :
    List.Perm (npShuffle seed l) l :=
  shuffleGo_perm l.length (lcgNext (seed + 17)) l le_rfl

theorem npShuffle_length {α : Type} (seed : Nat) (l : List α) :
    (npShuffle seed l).length = l.length :=
  (npShuffle_perm seed l).length_eq

/-! ## Lemmas about the in-place padding -/

theorem insertNeg1_append (x : Int) :
    ∀ (ys : List Int) (a : Int), insertNeg1 x (ys ++ [a]) = ys ++ [x, a] := by
  intro ys
  induction ys with
  | nil => intro a; rfl
  | cons y ys ih =>
    intro a
    cases ys with
    | nil => rfl
    | cons y' ys' =>
      show y :: insertNeg1 x ((y' :: ys') ++ [a]) = y :: ((y' :: ys') ++ [x, a])
      rw [ih a]

theorem padDoc_append (pad : Int) :
    ∀ (k : Nat) (ys : List Int) (a : Int),
      padDoc pad k (ys ++ [a]) = ys ++ List.replicate k pad ++ [a] := by
  intro k
  induction k with
  | zero => intro ys a; simp [padDoc]
  | succ k ih =>
    intro ys a
    show padDoc pad k (insertNeg1 pad (ys ++ [a])) = _
    rw [insertNeg1_append]
    have h1 : ys ++ [pad, a] = (ys ++ [pad]) ++ [a] := by simp
    rw [h1, ih]
    simp [List.replicate_succ]

theorem padDoc_nil (pad : Int) :
    ∀ k : Nat, padDoc pad k [] = List.replicate k pad := by
  intro k
  cases k with
  | zero => rfl
  | succ k =>
    show padDoc pad k (insertNeg1 pad []) = _
    have h1 : insertNeg1 pad [] = ([] : List Int) ++ [pad] := rfl
    rw [h1, padDoc_append]
    simp [List.replicate_succ']

theorem padDoc_eq_padBeforeLast (pad : Int) (k : Nat) (l : List Int) :
    padDoc pad k l = padBeforeLast pad k l := by
  cases l with
  | nil => simpa [padBeforeLast] using padDoc_nil pad k
  | cons a rest =>
    have hne : a :: rest ≠ [] := List.cons_ne_nil a rest
    conv_lhs => rw [← List.dropLast_append_getLast hne]
    rw [padDoc_append]
    rfl

theorem padBeforeLast_length (pad : Int) (k : Nat) (l : List Int) :
    (padBeforeLast pad k l).length = l.length + k := by
  cases l with
  | nil => simp [padBeforeLast]
  | cons a rest =>
    show ((a :: rest).dropLast ++ List.replicate k pad ++ [(a :: rest).getLast _]).length = _
    simp [List.length_dropLast]
    omega

theorem padDoc_length (pad : Int) (k : Nat) (l : List Int) :
    (padDoc pad k l).length = l.length + k := by
  rw [padDoc_eq_padBeforeLast, padBeforeLast_length]

theorem padsApplied_length (pad : Int) (maxLen : Nat) (l : List Int)
    (h : l.length ≤ maxLen) : (padsApplied pad maxLen l).length = maxLen := by
  unfold padsApplied
  split
  · rw [padDoc_length]; omega
  · omega

theorem padsApplied_eq_padBeforeLast (pad : Int) (maxLen : Nat) (l : List Int)
    (h : l.length ≤ maxLen) :
    padsApplied pad maxLen l = padBeforeLast pad (maxLen - l.length) l := by
  unfold padsApplied
  split
  · exact padDoc_eq_padBeforeLast pad _ l
  · have hk : maxLen - l.length = 0 := by omega
    rw [hk]
    cases l with
    | nil => simp [padBeforeLast]
    | cons a rest =>
      show _ = (a :: rest).dropLast ++ List.replicate 0 pad ++ [(a :: rest).getLast _]
      simp [List.dropLast_append_getLast]

/-! ## Lemmas about the per-batch maxima -/

theorem le_foldl_max {α : Type} (f : α → Nat) :
    ∀ (l : List α) (a : Nat), a ≤ l.foldl (fun m p => max m (f p)) a := by
  intro l
  induction l with
  | nil => intro a; exact le_rfl
  | cons x t ih =>
    intro a
    rw [List.foldl_cons]
    exact le_trans (Nat.le_max_left a (f x)) (ih (max a (f x)))

theorem foldl_max_le {α : Type} (f : α → Nat) :
    ∀ (l : List α) (a : Nat) (x : α), x ∈ l →
      f x ≤ l.foldl (fun m p => max m (f p)) a := by
  intro l
  induction l with
  | nil => intro a x hx; cases hx
  | cons y t ih =>
    intro a x hx
    rw [List.foldl_cons]
    rcases List.mem_cons.mp hx with h | h
    · subst h
      exact le_trans (Nat.le_max_right a (f x)) (le_foldl_max f t (max a (f x)))
    · exact ih (max a (f y)) x h

theorem length_le_inputMaxLen {doc_pairs : List (List Int × List Int)}
    {p : List Int × List Int} (hp : p ∈ doc_pairs) :
    p.1.length ≤ inputMaxLen doc_pairs :=
  foldl_max_le (fun q => q.1.length) doc_pairs 0 p hp

theorem length_le_outputMaxLen {doc_pairs : List (List Int × List Int)}
    {p : List Int × List Int} (hp : p ∈ doc_pairs) :
    p.2.length ≤ outputMaxLen doc_pairs :=
  foldl_max_le (fun q => q.2.length) doc_pairs 0 p hp

/-! ## Shape lemmas for `_build_tensor` -/

theorem npTranspose_length (rows : List (List Int)) :
    (npTranspose rows).length = (rows.headD []).length := by
  simp [npTranspose]

theorem npTranspose_mem_length (rows : List (List Int)) :
    ∀ r ∈ npTranspose rows, r.length = rows.length := by
  intro r hr
  obtain ⟨j, _, rfl⟩ := List.mem_map.mp hr
  simp

theorem buildTensorPadded_length (pad : Int) (doc_pairs : List (List Int × List Int)) :
    (buildTensorPadded pad doc_pairs).length = doc_pairs.length := by
  simp [buildTensorPadded]

theorem buildTensor_fst_length (pad : Int) (doc_pairs : List (List Int × List Int)) :
    (buildTensor pad doc_pairs).1.length = inputMaxLen doc_pairs := by
  cases doc_pairs with
  | nil => rfl
  | cons d rest =>
    show (npTranspose ((buildTensorPadded pad (d :: rest)).map Prod.fst)).length = _
    rw [npTranspose_length]
    show ((padPair pad (inputMaxLen (d :: rest)) (outputMaxLen (d :: rest)) d).1).length = _
    exact padsApplied_length _ _ _ (length_le_inputMaxLen (List.mem_cons_self d rest))

theorem buildTensor_snd_length (pad : Int) (doc_pairs : List (List Int × List Int)) :
    (buildTensor pad doc_pairs).2.length = outputMaxLen doc_pairs := by
  cases doc_pairs with
  | nil => rfl
  | cons d rest =>
    show (npTranspose ((buildTensorPadded pad (d :: rest)).map Prod.snd)).length = _
    rw [npTranspose_length]
    show ((padPair pad (inputMaxLen (d :: rest)) (outputMaxLen (d :: rest)) d).2).length = _
    exact padsApplied_length _ _ _ (length_le_outputMaxLen (List.mem_cons_self d rest))

theorem buildTensor_fst_mem_length (pad : Int) (doc_pairs : List (List Int × List Int)) :
    ∀ r ∈ (buildTensor pad doc_pairs).1, r.length = doc_pairs.length := by
  intro r hr
  have h := npTranspose_mem_length ((buildTensorPadded pad doc_pairs).map Prod.fst) r hr
  simpa [buildTensorPadded] using h

theorem buildTensor_snd_mem_length (pad : Int) (doc_pairs : List (List Int × List Int)) :
    ∀ r ∈ (buildTensor pad doc_pairs).2, r.length = doc_pairs.length := by
  intro r hr
  have h := npTranspose_mem_length ((buildTensorPadded pad doc_pairs).map Prod.snd) r hr
  simpa [buildTensorPadded] using h

/-! ## Characterisation of the constructor -/

theorem shuffleVocabData_ok (seed : Nat) (inDocs outDocs : List (List Int))
    (hne : List.zip inDocs outDocs ≠ []) :
    shuffleVocabData seed inDocs outDocs =
      Except.ok ((npShuffle seed (List.zip inDocs outDocs)).map Prod.fst,
                 (npShuffle seed (List.zip inDocs outDocs)).map Prod.snd) := by
  have hsh : npShuffle seed (List.zip inDocs outDocs) ≠ [] := by
    intro h
    apply hne
    have hperm := npShuffle_perm seed (List.zip inDocs outDocs)
    rw [h] at hperm
    exact (hperm.symm.eq_nil)
  unfold shuffleVocabData
  rw [if_neg (by simpa [List.isEmpty_eq_false] using hsh)]

theorem mk?_none_ok (iv ov : Vocabulary) (bs : Int) (seed : Nat)
    (hne : List.zip iv.docs_tokens_encoded ov.docs_tokens_encoded ≠ []) :
    SmartDataLoader.mk? iv ov bs none none seed =
      Except.ok
        { input_docs :=
            (npShuffle seed (List.zip iv.docs_tokens_encoded ov.docs_tokens_encoded)).map Prod.fst
          output_docs :=
            (npShuffle seed (List.zip iv.docs_tokens_encoded ov.docs_tokens_encoded)).map Prod.snd
          batch_size := bs
          n_sentences := iv.docs_tokens_encoded.length
          PAD_TOKEN := iv.PAD_TOKEN } := by
  unfold SmartDataLoader.mk?
  dsimp only
  rw [shuffleVocabData_ok seed _ _ hne]

theorem mk?_some_ok (iv ov : Vocabulary) (bs : Int) (io oo : List (List Int)) (seed : Nat)
    (hne : List.zip io oo ≠ []) :
    SmartDataLoader.mk? iv ov bs (some io) (some oo) seed =
      Except.ok
        { input_docs := (npShuffle seed (List.zip io oo)).map Prod.fst
          output_docs := (npShuffle seed (List.zip io oo)).map Prod.snd
          batch_size := bs
          n_sentences := iv.docs_tokens_encoded.length
          PAD_TOKEN := iv.PAD_TOKEN } := by
  unfold SmartDataLoader.mk?
  dsimp only
  rw [shuffleVocabData_ok seed _ _ hne]

theorem zip_ne_nil_of_ne_nil {α β : Type} {l1 : List α} {l2 : List β}
    (h1 : l1 ≠ []) (h2 : l2 ≠ []) : List.zip l1 l2 ≠ [] := by
  intro h
  have := congrArg List.length h
  rw [List.length_zip] at this
  simp at this
  rcases this with h' | h'
  · exact h1 h'
  · exact h2 h'

/-! ## Lemmas about the batch chunking -/

theorem chunksGo_length {α : Type} (bs : Nat) :
    ∀ (k : Nat) (l : List α), (chunksGo bs k l).length = k := by
  intro k
  induction k with
  | zero => intro l; rfl
  | succ k ih => intro l; simp [chunksGo, ih]

theorem chunkDrop_length {α : Type} (bs : Nat) (l : List α) :
    (chunkDrop bs l).length = l.length / bs := by
  unfold chunkDrop
  rw [chunksGo_length]

theorem chunksGo_join {α : Type} (bs : Nat) :
    ∀ (k : Nat) (l : List α), (chunksGo bs k l).flatten = l.take (k * bs) := by
  intro k
  induction k with
  | zero => intro l; simp [chunksGo]
  | succ k ih =>
    intro l
    show (l.take bs :: chunksGo bs k (l.drop bs)).flatten = l.take ((k + 1) * bs)
    rw [List.flatten_cons, ih]
    rw [← List.take_add]
    congr 1
    ring

theorem chunkDrop_join {α : Type} (bs : Nat) (l : List α) :
    (chunkDrop bs l).flatten = l.take (l.length / bs * bs) := by
  unfold chunkDrop
  rw [chunksGo_join]

theorem chunksGo_mem_length {α : Type} (bs : Nat) :
    ∀ (k : Nat) (l : List α), k * bs ≤ l.length →
      ∀ b ∈ chunksGo bs k l, b.length = bs := by
  intro k
  induction k with
  | zero => intro l h b hb; simp [chunksGo] at hb
  | succ k ih =>
    intro l h b hb
    have hmul : (k + 1) * bs = k * bs + bs := by ring
    rcases List.mem_cons.mp hb with rfl | hb'
    · rw [List.length_take]
      omega
    · apply ih (l.drop bs) _ b hb'
      rw [List.length_drop]
      omega

theorem chunkDrop_mem_length {α : Type} (bs : Nat) (l : List α) :
    ∀ b ∈ chunkDrop bs l, b.length = bs :=
  chunksGo_mem_length bs _ l (Nat.div_mul_le_self l.length bs)

theorem chunkDrop_nil_of_lt {α : Type} (bs : Nat) (l : List α) (h : l.length < bs) :
    chunkDrop bs l = [] := by
  unfold chunkDrop
  rw [Nat.div_eq_of_lt h]
  rfl

theorem chunkDrop_cons {α : Type} (bs : Nat) (hbs : 0 < bs) (l : List α)
    (h : bs ≤ l.length) :
    chunkDrop bs l = l.take bs :: chunkDrop bs (l.drop bs) := by
  unfold chunkDrop
  rw [List.length_drop, Nat.div_eq_sub_div hbs h]
  rfl

theorem emitFrom_nil {α : Type} (bs : Nat) (hbs : 0 < bs) (l : List α) :
    emitFrom bs [] l = chunkDrop bs l := by
  unfold emitFrom
  simp only [List.length_nil, Nat.zero_add, List.nil_append, Nat.sub_zero]
  split
  · exact (chunkDrop_nil_of_lt bs l (by omega)).symm
  · exact (chunkDrop_cons bs hbs l (by omega)).symm

theorem emitFrom_empty {α : Type} (bs : Nat) (col : List α) (hcol : col.length < bs) :
    emitFrom bs col [] = [] := by
  unfold emitFrom
  rw [if_pos (by simpa using hcol)]

theorem emitFrom_cons_full {α : Type} (bs : Nat) (col : List α) (x : α) (l : List α)
    (h : col.length + 1 = bs) :
    emitFrom bs col (x :: l) = (col ++ [x]) :: chunkDrop bs l := by
  unfold emitFrom
  rw [if_neg (by simp; omega)]
  have h2 : bs - col.length = 0 + 1 := by omega
  rw [h2, List.take_succ_cons, List.drop_succ_cons]
  simp

theorem emitFrom_cons_step {α : Type} (bs : Nat) (col : List α) (x : α) (l : List α)
    (h : col.length + 1 < bs) :
    emitFrom bs col (x :: l) = emitFrom bs (col ++ [x]) l := by
  unfold emitFrom
  have hsub : bs - col.length = (bs - (col.length + 1)) + 1 := by omega
  by_cases hcond : col.length + 1 + l.length < bs
  · rw [if_pos (by simp; omega), if_pos (by simp; omega)]
  · rw [if_neg (by simp; omega), if_neg (by simp; omega)]
    rw [hsub, List.take_succ_cons, List.drop_succ_cons]
    simp

/-! ## The `__iter__` loop computes chunked batches -/

theorem zip_drop_decomp {α β : Type} :
    ∀ (l1 : List α) (l2 : List β) (s : Nat), s < l1.length → s < l2.length →
      ∃ a b, l1.get? s = some a ∧ l2.get? s = some b ∧
        (List.zip l1 l2).drop s = (a, b) :: (List.zip l1 l2).drop (s + 1) := by
  intro l1
  induction l1 with
  | nil => intro l2 s h1 h2; simp at h1
  | cons x xs ih =>
    intro l2 s h1 h2
    cases l2 with
    | nil => simp at h2
    | cons y ys =>
      cases s with
      | zero => exact ⟨x, y, rfl, rfl, by simp [List.zip_cons_cons]⟩
      | succ s =>
        obtain ⟨a, b, ha, hb, hd⟩ := ih ys s (by simpa using h1) (by simpa using h2)
        refine ⟨a, b, by simpa using ha, by simpa using hb, ?_⟩
        rw [List.zip_cons_cons, List.drop_succ_cons, List.drop_succ_cons]
        exact hd

theorem iterGo_range' (inDocs outDocs : List (List Int)) (bs : Int) (hbs : 1 ≤ bs) :
    ∀ (m s : Nat) (col : List (List Int × List Int)),
      s + m ≤ inDocs.length → s + m ≤ outDocs.length → col.length < bs.toNat →
      iterGo inDocs outDocs bs (List.range' s m) (col.length : Int) col =
        Except.ok (emitFrom bs.toNat col (((List.zip inDocs outDocs).drop s).take m)) := by
  intro m
  induction m with
  | zero =>
    intro s col h1 h2 hcol
    show iterGo inDocs outDocs bs [] (col.length : Int) col = _
    rw [List.take_zero, emitFrom_empty bs.toNat col hcol]
    rfl
  | succ m ih =>
    intro s col h1 h2 hcol
    obtain ⟨a, b, ha, hb, hd⟩ := zip_drop_decomp inDocs outDocs s (by omega) (by omega)
    rw [List.range'_succ]
    rw [hd, List.take_succ_cons]
    simp only [iterGo, ha, hb]
    by_cases hfull : (col.length : Int) + 1 = bs
    · rw [if_pos hfull]
      have hcol0 : (0 : Nat) < bs.toNat := by omega
      have ih0 := ih (s + 1) [] (by omega) (by omega)
        (by simp only [List.length_nil]; omega)
      simp only [List.length_nil, Nat.cast_zero] at ih0
      rw [ih0]
      rw [emitFrom_nil bs.toNat (by omega)]
      rw [emitFrom_cons_full bs.toNat col (a, b) _ (by omega)]
    · rw [if_neg hfull]
      have hlt : col.length + 1 < bs.toNat := by omega
      have ih1 := ih (s + 1) (col ++ [(a, b)]) (by omega) (by omega)
        (by simpa using hlt)
      rw [emitFrom_cons_step bs.toNat col (a, b) _ hlt]
      have hcast : (col.length : Int) + 1 = (((col ++ [(a, b)]).length : Nat) : Int) := by
        simp
      rw [hcast, ih1]

theorem iterGo_range (inDocs outDocs : List (List Int)) (bs : Int) (hbs : 1 ≤ bs)
    (n : Nat) (h1 : n ≤ inDocs.length) (h2 : n ≤ outDocs.length) :
    iterGo inDocs outDocs bs (List.range n) 0 [] =
      Except.ok (chunkDrop bs.toNat ((List.zip inDocs outDocs).take n)) := by
  have h := iterGo_range' inDocs outDocs bs hbs n 0 [] (by omega) (by omega)
    (by simp only [List.length_nil]; omega)
  simp only [List.length_nil, Nat.cast_zero, List.drop_zero] at h
  rw [List.range_eq_range']
  rw [h, emitFrom_nil bs.toNat (by omega)]

theorem iterGo_error (inDocs outDocs : List (List Int)) (bs : Int) :
    ∀ (idxs : List Nat) (c : Int) (col : List (List Int × List Int)) (i : Nat),
      i ∈ idxs → (inDocs.get? i = none ∨ outDocs.get? i = none) →
      iterGo inDocs outDocs bs idxs c col =
        Except.error "IndexError: tuple index out of range" := by
  intro idxs
  induction idxs with
  | nil => intro c col i hi; cases hi
  | cons j rest ih =>
    intro c col i hi hnone
    rcases List.mem_cons.mp hi with heq | hi'
    · subst heq
      simp only [iterGo]
      split
      next a b ha hb =>
        rcases hnone with h | h
        · rw [ha] at h; cases h
        · rw [hb] at h; cases h
      next => rfl
    · simp only [iterGo]
      split
      next a b ha hb =>
        by_cases hfull : c + 1 = bs
        · rw [if_pos hfull, ih 0 [] i hi' hnone]
        · rw [if_neg hfull]
          exact ih (c + 1) (col ++ [(a, b)]) i hi' hnone
      next => rfl

/-! ## Arithmetic and unzip helpers -/

theorem pyFloorDiv_natCast (n : Nat) (bs : Int) (hbs : 1 ≤ bs) :
    pyFloorDiv (n : Int) bs = Except.ok ((n / bs.toNat : Nat) : Int) := by
  unfold pyFloorDiv
  rw [if_neg (by omega)]
  congr 1
  have hbs' : bs = (bs.toNat : Int) := by omega
  rw [hbs']
  exact (Int.ofNat_fdiv n bs.toNat).symm

theorem zip_map_fst_snd {α β : Type} (l : List (α × β)) :
    List.zip (l.map Prod.fst) (l.map Prod.snd) = l := by
  have h := List.zip_unzip l
  rwa [List.unzip_eq_map] at h

/-! ## Claim theorems -/

/-- Workhorse for the no-override iteration claims: a constructible
loader's single pass is exactly the chunked shuffled corpus with the
trailing remainder dropped, and `__len__` agrees. -/
theorem loader_spec (iv ov : Vocabulary) (bs : Int) (seed : Nat)
    (hbs : 1 ≤ bs)
    (hlen : iv.docs_tokens_encoded.length = ov.docs_tokens_encoded.length)
    (hne : iv.docs_tokens_encoded ≠ []) :
    ∃ sdl raw, SmartDataLoader.mk? iv ov bs none none seed = Except.ok sdl ∧
      SmartDataLoader.iterRawBatches sdl = Except.ok raw ∧
      raw.length = iv.docs_tokens_encoded.length / bs.toNat ∧
      SmartDataLoader.len? sdl =
        Except.ok ((iv.docs_tokens_encoded.length / bs.toNat : Nat) : Int) ∧
      raw.flatten = (List.zip sdl.input_docs sdl.output_docs).take
        (iv.docs_tokens_encoded.length / bs.toNat * bs.toNat) ∧
      ∀ b ∈ raw, b.length = bs.toNat := by
  have hone : ov.docs_tokens_encoded ≠ [] := by
    intro h
    apply hne
    have h0 : iv.docs_tokens_encoded.length = 0 := by rw [hlen, h]; rfl
    cases hcase : iv.docs_tokens_encoded with
    | nil => rfl
    | cons x xs => rw [hcase] at h0; simp at h0
  have hzip := zip_ne_nil_of_ne_nil hne hone
  have hmk := mk?_none_ok iv ov bs seed hzip
  have hZlen :
      (npShuffle seed (List.zip iv.docs_tokens_encoded ov.docs_tokens_encoded)).length
        = iv.docs_tokens_encoded.length := by
    rw [npShuffle_length, List.length_zip, ← hlen, Nat.min_self]
  refine ⟨_, chunkDrop bs.toNat
      (npShuffle seed (List.zip iv.docs_tokens_encoded ov.docs_tokens_encoded)),
    hmk, ?_, ?_, ?_, ?_, ?_⟩
  · show iterGo
        ((npShuffle seed (List.zip iv.docs_tokens_encoded ov.docs_tokens_encoded)).map Prod.fst)
        ((npShuffle seed (List.zip iv.docs_tokens_encoded ov.docs_tokens_encoded)).map Prod.snd)
        bs (List.range iv.docs_tokens_encoded.length) 0 [] = _
    rw [iterGo_range _ _ bs hbs _ (by rw [List.length_map, hZlen])
      (by rw [List.length_map, hZlen])]
    rw [zip_map_fst_snd, ← hZlen, List.take_length]
  · rw [chunkDrop_length, hZlen]
  · show pyFloorDiv (iv.docs_tokens_encoded.length : Int) bs = _
    exact pyFloorDiv_natCast _ bs hbs
  · rw [chunkDrop_join, zip_map_fst_snd, hZlen]
  · exact chunkDrop_mem_length bs.toNat _


/-- Claim C1, as frozen, is false on the code: the padded sequence is NOT the
original followed by pad tokens.  Concretely, padding `[1, 2]` to length 3
with pad id 0 yields `[1, 0, 2]` (the pad is inserted before the final
token by `insert(-1, PAD_TOKEN)`), not `[1, 2] ++ [0]`. -/
theorem C1_counterexample :
    buildTensorPadded 0 [([1, 2], [9, 9]), ([1, 2, 3], [9, 9])]
        = [([1, 0, 2], [9, 9]), ([1, 2, 3], [9, 9])]
    ∧ ([1, 0, 2] : List Int) ≠ [1, 2] ++ List.replicate (3 - 2) 0 := by
  exact ⟨rfl, by decide⟩

/-- Claim C1 (amended): in every materialised batch, each sequence shorter
than the batch maximum is padded with exactly `max_len - len` copies of the
pad-token id, every original token is preserved in order and value, and the
pads sit immediately BEFORE the final original token (an empty sequence
becomes all pads) — i.e. `padded = orig.dropLast ++ pads ++ [orig.last]`. -/
theorem C1_amended_padding (pad : Int) (doc_pairs : List (List Int × List Int)) :
    buildTensorPadded pad doc_pairs = doc_pairs.map (fun p =>
      (padBeforeLast pad (inputMaxLen doc_pairs - p.1.length) p.1,
       padBeforeLast pad (outputMaxLen doc_pairs - p.2.length) p.2)) := by
  unfold buildTensorPadded
  apply List.map_congr_left
  intro p hp
  unfold padPair
  rw [padsApplied_eq_padBeforeLast _ _ _ (length_le_inputMaxLen hp),
      padsApplied_eq_padBeforeLast _ _ _ (length_le_outputMaxLen hp)]

/-- Claim C2: for every constructible loader (equal-length corpora, `N ≥ 1`,
`batch_size ≥ 1`), one iteration pass emits exactly `N // batch_size`
batches, `__len__` reports the same number, and the emitted pairs are
precisely the first `N // batch_size * batch_size` pairs of the shuffled
order — the trailing `N mod batch_size` shuffled pairs are never emitted. -/
theorem C2_batch_count (iv ov : Vocabulary) (bs : Int) (seed : Nat)
    (hbs : 1 ≤ bs)
    (hlen : iv.docs_tokens_encoded.length = ov.docs_tokens_encoded.length)
    (hne : iv.docs_tokens_encoded ≠ []) :
    ∃ sdl raw, SmartDataLoader.mk? iv ov bs none none seed = Except.ok sdl ∧
      SmartDataLoader.iterRawBatches sdl = Except.ok raw ∧
      raw.length = iv.docs_tokens_encoded.length / bs.toNat ∧
      SmartDataLoader.len? sdl =
        Except.ok ((iv.docs_tokens_encoded.length / bs.toNat : Nat) : Int) ∧
      raw.flatten = (List.zip sdl.input_docs sdl.output_docs).take
        (iv.docs_tokens_encoded.length / bs.toNat * bs.toNat) ∧
      ∀ b ∈ raw, b.length = bs.toNat :=
  loader_spec iv ov bs seed hbs hlen hne

/-- Witness for C2: five paired sequences, batch size 2 — two batches of two
pairs each are emitted, `__len__` reports 2, and one shuffled pair is
dropped. -/
theorem C2_witness :
    ∃ sdl raw,
      SmartDataLoader.mk? ⟨[[1], [2], [3], [4], [5]], 0⟩ ⟨[[6], [7], [8], [9], [10]], 0⟩ 2
          none none 0 = Except.ok sdl ∧
      SmartDataLoader.iterRawBatches sdl = Except.ok raw ∧
      raw.length = 2 ∧
      SmartDataLoader.len? sdl = Except.ok 2 ∧
      raw.flatten = (List.zip sdl.input_docs sdl.output_docs).take 4 ∧
      ∀ b ∈ raw, b.length = 2 :=
  C2_batch_count ⟨[[1], [2], [3], [4], [5]], 0⟩ ⟨[[6], [7], [8], [9], [10]], 0⟩ 2 0
    (by decide) (by decide) (by decide)

/-- Claim C3: every emitted tensor pair is time-major — for each batch the
input tensor has first dimension equal to the maximum input-sequence length
of that batch (measured post-shuffle, pre-padding) and every row of it has
length `batch_size`; likewise, independently, the output tensor with the
maximum output-sequence length. -/
theorem C3_tensor_shape (iv ov : Vocabulary) (bs : Int) (seed : Nat)
    (hbs : 1 ≤ bs)
    (hlen : iv.docs_tokens_encoded.length = ov.docs_tokens_encoded.length)
    (hne : iv.docs_tokens_encoded ≠ []) :
    ∃ sdl raw, SmartDataLoader.mk? iv ov bs none none seed = Except.ok sdl ∧
      SmartDataLoader.iterRawBatches sdl = Except.ok raw ∧
      SmartDataLoader.iterTensors sdl =
        Except.ok (raw.map (buildTensor sdl.PAD_TOKEN)) ∧
      ∀ b ∈ raw,
        b.length = bs.toNat ∧
        (buildTensor sdl.PAD_TOKEN b).1.length = inputMaxLen b ∧
        (∀ row ∈ (buildTensor sdl.PAD_TOKEN b).1, row.length = bs.toNat) ∧
        (buildTensor sdl.PAD_TOKEN b).2.length = outputMaxLen b ∧
        (∀ row ∈ (buildTensor sdl.PAD_TOKEN b).2, row.length = bs.toNat) := by
  obtain ⟨sdl, raw, hmk, hraw, hlenraw, hlen?, hflat, hmem⟩ :=
    loader_spec iv ov bs seed hbs hlen hne
  refine ⟨sdl, raw, hmk, hraw, ?_, ?_⟩
  · show Except.map (List.map (buildTensor sdl.PAD_TOKEN)) sdl.iterRawBatches = _
    rw [hraw]
    rfl
  · intro b hb
    have hblen := hmem b hb
    refine ⟨hblen, buildTensor_fst_length _ b, ?_, buildTensor_snd_length _ b, ?_⟩
    · intro row hrow
      rw [buildTensor_fst_mem_length _ b row hrow, hblen]
    · intro row hrow
      rw [buildTensor_snd_mem_length _ b row hrow, hblen]

/-- Witness for C3: the spec's concrete scenario — inputs
`[[1,2],[1,2,3],[1]]`, outputs `[[4,5],[4],[4,5,6]]`, batch size 3 — gives
one batch whose tensors are 3×3. -/
theorem C3_witness :
    ∃ sdl raw,
      SmartDataLoader.mk? ⟨[[1, 2], [1, 2, 3], [1]], 0⟩ ⟨[[4, 5], [4], [4, 5, 6]], 0⟩ 3
          none none 0 = Except.ok sdl ∧
      SmartDataLoader.iterRawBatches sdl = Except.ok raw ∧
      SmartDataLoader.iterTensors sdl =
        Except.ok (raw.map (buildTensor sdl.PAD_TOKEN)) ∧
      ∀ b ∈ raw,
        b.length = 3 ∧
        (buildTensor sdl.PAD_TOKEN b).1.length = inputMaxLen b ∧
        (∀ row ∈ (buildTensor sdl.PAD_TOKEN b).1, row.length = 3) ∧
        (buildTensor sdl.PAD_TOKEN b).2.length = outputMaxLen b ∧
        (∀ row ∈ (buildTensor sdl.PAD_TOKEN b).2, row.length = 3) :=
  C3_tensor_shape ⟨[[1, 2], [1, 2, 3], [1]], 0⟩ ⟨[[4, 5], [4], [4, 5, 6]], 0⟩ 3 0
    (by decide) (by decide) (by decide)

/-- Claim C4: construction is deterministic in the seed — two constructions
with identical (effective) input sequences, output sequences, pad id, batch
size, override lists and seed produce identical results: the same shuffled
orderings and element-wise identical emitted tensor sequences. -/
theorem C4_determinism (iv1 ov1 iv2 ov2 : Vocabulary) (bs : Int)
    (io oo : Option (List (List Int))) (seed : Nat)
    (hi : iv1.docs_tokens_encoded = iv2.docs_tokens_encoded)
    (ho : ov1.docs_tokens_encoded = ov2.docs_tokens_encoded)
    (hp : iv1.PAD_TOKEN = iv2.PAD_TOKEN) :
    SmartDataLoader.mk? iv1 ov1 bs io oo seed = SmartDataLoader.mk? iv2 ov2 bs io oo seed ∧
    ∀ sdl1 sdl2, SmartDataLoader.mk? iv1 ov1 bs io oo seed = Except.ok sdl1 →
      SmartDataLoader.mk? iv2 ov2 bs io oo seed = Except.ok sdl2 →
      sdl1.input_docs = sdl2.input_docs ∧ sdl1.output_docs = sdl2.output_docs ∧
      sdl1.iterTensors = sdl2.iterTensors ∧ sdl1.len? = sdl2.len? := by
  have hmk : SmartDataLoader.mk? iv1 ov1 bs io oo seed
      = SmartDataLoader.mk? iv2 ov2 bs io oo seed := by
    unfold SmartDataLoader.mk?
    rw [hi, ho, hp]
  refine ⟨hmk, ?_⟩
  intro sdl1 sdl2 h1 h2
  rw [hmk, h2] at h1
  injection h1 with h'
  subst h'
  exact ⟨rfl, rfl, rfl, rfl⟩

/-- Witness for C4: two constructions from equal vocabulary data with seed 7
coincide in shuffle order and emitted tensors. -/
theorem C4_witness :
    SmartDataLoader.mk? ⟨[[1], [2], [3]], 5⟩ ⟨[[4], [5], [6]], 9⟩ 2 none none 7
        = SmartDataLoader.mk? ⟨[[1], [2], [3]], 5⟩ ⟨[[4], [5], [6]], 9⟩ 2 none none 7 ∧
    ∀ sdl1 sdl2,
      SmartDataLoader.mk? ⟨[[1], [2], [3]], 5⟩ ⟨[[4], [5], [6]], 9⟩ 2 none none 7
        = Except.ok sdl1 →
      SmartDataLoader.mk? ⟨[[1], [2], [3]], 5⟩ ⟨[[4], [5], [6]], 9⟩ 2 none none 7
        = Except.ok sdl2 →
      sdl1.input_docs = sdl2.input_docs ∧ sdl1.output_docs = sdl2.output_docs ∧
      sdl1.iterTensors = sdl2.iterTensors ∧ sdl1.len? = sdl2.len? :=
  C4_determinism ⟨[[1], [2], [3]], 5⟩ ⟨[[4], [5], [6]], 9⟩ ⟨[[1], [2], [3]], 5⟩
    ⟨[[4], [5], [6]], 9⟩ 2 none none 7 rfl rfl rfl

/-- Claim C5, as frozen, is false on the code: caller-supplied override
lists are stored by reference, not copied, and `_build_tensor` pads in
place.  Concretely, with overrides `ins = [[1,2],[1,2,3]]`, pad id 0 and
batch size 2, one full iteration leaves the caller's first inner list as
`[1, 0, 2]` — the caller's own data has been mutated. -/
theorem C5_counterexample :
    Except.map (fun r => r.1.ins)
        (runWithOverrides ⟨[[9], [9]], 0⟩ ⟨[[9], [9]], 0⟩ 2 [[1, 2], [1, 2, 3]] [[5], [6]] 0)
      = Except.ok [[1, 0, 2], [1, 2, 3]] ∧
    [[1, 0, 2], [1, 2, 3]] ≠ [[(1 : Int), 2], [1, 2, 3]] := by
  exact ⟨rfl, by decide⟩

/-- Claim C5 (amended): the caller's original VOCABULARY objects are indeed
left unchanged by construction plus a full iteration (they are deep-copied
at construction); the claim's extension to explicitly supplied override
token lists is what fails, since those are aliased rather than copied (see
the counterexample). -/
theorem C5_amended_frame (iv ov : Vocabulary) (bs : Int) (seed : Nat)
    (r : (Vocabulary × Vocabulary) × List (List (List Int) × List (List Int)))
    (h : constructAndIterate iv ov bs seed = Except.ok r) :
    r.1.1 = iv ∧ r.1.2 = ov := by
  unfold constructAndIterate at h
  split at h
  · simp at h
  · split at h
    · simp at h
    · injection h with h'
      rw [← h']
      exact ⟨rfl, rfl⟩

/-- Witness for C5 (amended part): a concrete construction-plus-iteration
returns the caller's vocabulary objects unchanged. -/
theorem C5_witness :
    ∃ r, constructAndIterate ⟨[[1, 2], [3]], 0⟩ ⟨[[4], [5, 6]], 0⟩ 1 0 = Except.ok r ∧
      r.1.1 = (⟨[[1, 2], [3]], 0⟩ : Vocabulary) ∧
      r.1.2 = (⟨[[4], [5, 6]], 0⟩ : Vocabulary) :=
  ⟨_, rfl, C5_amended_frame ⟨[[1, 2], [3]], 0⟩ ⟨[[4], [5, 6]], 0⟩ 1 0 _ rfl⟩

/-- Claim C6 names a real code bug: with an empty corpus (N = 0), the
constructor does NOT succeed; `_shuffle_vocab_data`'s `zip(*joined)`
unpacking raises `ValueError` because the joined list is empty.  The claim
(and spec) say construction succeeds with zero batches and length 0. -/
theorem C6_empty_corpus_bug :
    SmartDataLoader.mk? ⟨[], 0⟩ ⟨[], 0⟩ 1 none none 0 =
      Except.error "ValueError: not enough values to unpack (expected 2, got 0)" := rfl

/-- Claim C7 names a real code bug: `batch_size ≤ 0` is NOT rejected at
construction.  With `batch_size = 0` the constructor succeeds, a full
iteration pass terminates having emitted no batch (the counter never equals
0 after incrementing, so accumulation is bounded by N and then discarded),
and `__len__` raises `ZeroDivisionError` — exactly the late failure the
claim says fail-fast validation should preclude. -/
theorem C7_batch_size_bug :
    ∃ sdl, SmartDataLoader.mk? ⟨[[1]], 0⟩ ⟨[[2]], 0⟩ 0 none none 0 = Except.ok sdl ∧
      sdl.len? = Except.error "ZeroDivisionError: integer division or modulo by zero" ∧
      sdl.iterRawBatches = Except.ok [] :=
  ⟨_, rfl, rfl, rfl⟩

/-- Claim C8, as frozen, is false on the code: with more input sequences
than output sequences (`N_in = 2 > N_out = 1`), construction succeeds via
the truncating zip, but iteration does NOT succeed — `__iter__` walks
`range(n_sentences)` with `n_sentences = N_in`, indexing past the end of the
truncated shuffled tuples and raising `IndexError`. -/
theorem C8_counterexample :
    ∃ sdl, SmartDataLoader.mk? ⟨[[1], [2]], 0⟩ ⟨[[3]], 0⟩ 1 none none 0 = Except.ok sdl ∧
      SmartDataLoader.iterRawBatches sdl
        = Except.error "IndexError: tuple index out of range" :=
  ⟨_, rfl, rfl⟩

/-- Claim C8 (amended): construction silently zips and truncates to the
shorter count — exactly `min(N_in, N_out)` pairs enter the shuffled corpus —
and succeeds whenever that minimum is positive.  Iteration succeeds (with
`N_in // batch_size` batches over the truncated pairs) when
`N_in ≤ N_out`; when `N_in > N_out`, iteration raises `IndexError` because
`__iter__` walks `range(N_in)` over only `N_out` pairs. -/
theorem C8_amended_truncation (iv ov : Vocabulary) (bs : Int) (seed : Nat)
    (hbs : 1 ≤ bs) (hi : iv.docs_tokens_encoded ≠ []) (ho : ov.docs_tokens_encoded ≠ []) :
    ∃ sdl, SmartDataLoader.mk? iv ov bs none none seed = Except.ok sdl ∧
      sdl.input_docs.length
        = min iv.docs_tokens_encoded.length ov.docs_tokens_encoded.length ∧
      sdl.output_docs.length
        = min iv.docs_tokens_encoded.length ov.docs_tokens_encoded.length ∧
      (iv.docs_tokens_encoded.length ≤ ov.docs_tokens_encoded.length →
        ∃ raw, SmartDataLoader.iterRawBatches sdl = Except.ok raw ∧
          raw.length = iv.docs_tokens_encoded.length / bs.toNat ∧
          raw.flatten.length = iv.docs_tokens_encoded.length / bs.toNat * bs.toNat) ∧
      (ov.docs_tokens_encoded.length < iv.docs_tokens_encoded.length →
        SmartDataLoader.iterRawBatches sdl
          = Except.error "IndexError: tuple index out of range") := by
  have hzip := zip_ne_nil_of_ne_nil hi ho
  have hmk := mk?_none_ok iv ov bs seed hzip
  have hZlen :
      (npShuffle seed (List.zip iv.docs_tokens_encoded ov.docs_tokens_encoded)).length
        = min iv.docs_tokens_encoded.length ov.docs_tokens_encoded.length := by
    rw [npShuffle_length, List.length_zip]
  refine ⟨_, hmk, by simp [hZlen], by simp [hZlen], ?_, ?_⟩
  · intro hle
    have hmin : min iv.docs_tokens_encoded.length ov.docs_tokens_encoded.length
        = iv.docs_tokens_encoded.length := by omega
    have hn : iv.docs_tokens_encoded.length
        = (npShuffle seed (List.zip iv.docs_tokens_encoded ov.docs_tokens_encoded)).length := by
      rw [hZlen, hmin]
    refine ⟨chunkDrop bs.toNat
        (npShuffle seed (List.zip iv.docs_tokens_encoded ov.docs_tokens_encoded)),
      ?_, ?_, ?_⟩
    · show iterGo
          ((npShuffle seed (List.zip iv.docs_tokens_encoded ov.docs_tokens_encoded)).map
            Prod.fst)
          ((npShuffle seed (List.zip iv.docs_tokens_encoded ov.docs_tokens_encoded)).map
            Prod.snd)
          bs (List.range iv.docs_tokens_encoded.length) 0 [] = _
      rw [iterGo_range _ _ bs hbs _ (by rw [List.length_map]; omega)
        (by rw [List.length_map]; omega)]
      rw [zip_map_fst_snd]
      rw [hn, List.take_length]
    · rw [chunkDrop_length, hZlen, hmin]
    · rw [chunkDrop_join, List.length_take, hZlen, hmin]
      have := Nat.div_mul_le_self iv.docs_tokens_encoded.length bs.toNat
      omega
  · intro hlt
    have hmin : min iv.docs_tokens_encoded.length ov.docs_tokens_encoded.length
        = ov.docs_tokens_encoded.length := by omega
    show iterGo
        ((npShuffle seed (List.zip iv.docs_tokens_encoded ov.docs_tokens_encoded)).map
          Prod.fst)
        ((npShuffle seed (List.zip iv.docs_tokens_encoded ov.docs_tokens_encoded)).map
          Prod.snd)
        bs (List.range iv.docs_tokens_encoded.length) 0 [] = _
    exact iterGo_error _ _ bs (List.range iv.docs_tokens_encoded.length) 0 []
      ov.docs_tokens_encoded.length (List.mem_range.mpr hlt)
      (Or.inl (List.get?_eq_none.mpr (by rw [List.length_map]; omega)))

/-- Witness for C8 (amended): one input sequence against two output
sequences — the zip truncates to one pair, iteration succeeds with one
batch. -/
theorem C8_witness :
    ∃ sdl, SmartDataLoader.mk? ⟨[[1]], 0⟩ ⟨[[2], [3]], 0⟩ 1 none none 0 = Except.ok sdl ∧
      sdl.input_docs.length = 1 ∧ sdl.output_docs.length = 1 ∧
      (1 ≤ 2 → ∃ raw, SmartDataLoader.iterRawBatches sdl = Except.ok raw ∧
        raw.length = 1 ∧ raw.flatten.length = 1) ∧
      (2 < 1 → SmartDataLoader.iterRawBatches sdl
        = Except.error "IndexError: tuple index out of range") :=
  C8_amended_truncation ⟨[[1]], 0⟩ ⟨[[2], [3]], 0⟩ 1 0 (by decide) (by decide) (by decide)

/-- Claim C9, as frozen, is false on the code: overrides do NOT replace the
vocabularies' counts.  With a one-document input vocabulary and two-element
override lists (batch size 1), `n_sentences` is 1 and `__len__` returns 1 —
not 2, the override length — because line 34 reads
`len(input_vocab.docs_tokens_encoded)` from the caller's vocabulary
parameter, not from the overridden copy. -/
theorem C9_counterexample :
    ∃ sdl, SmartDataLoader.mk? ⟨[[7]], 0⟩ ⟨[[8]], 0⟩ 1 (some [[1], [2]]) (some [[3], [4]]) 0
        = Except.ok sdl ∧
      sdl.n_sentences = 1 ∧ sdl.len? = Except.ok 1 ∧
      sdl.n_sentences ≠ ([[1], [2]] : List (List Int)).length := by
  refine ⟨_, rfl, rfl, rfl, ?_⟩
  show (1 : Nat) ≠ ([[1], [2]] : List (List Int)).length
  decide

/-- Claim C9 (amended): when both override lists are supplied they do
replace the vocabularies' stored sequences as the source of iterated data —
the shuffled corpus is a permutation of the zipped override lists — but `N`
(and hence `__len__` and the iteration count) is still the sequence count
stored in the caller's input vocabulary, not the override length. -/
theorem C9_amended_overrides (iv ov : Vocabulary) (bs : Int)
    (io oo : List (List Int)) (seed : Nat) (hio : io ≠ []) (hoo : oo ≠ []) :
    ∃ sdl, SmartDataLoader.mk? iv ov bs (some io) (some oo) seed = Except.ok sdl ∧
      sdl.input_docs = (npShuffle seed (List.zip io oo)).map Prod.fst ∧
      sdl.output_docs = (npShuffle seed (List.zip io oo)).map Prod.snd ∧
      List.Perm (List.zip sdl.input_docs sdl.output_docs) (List.zip io oo) ∧
      sdl.n_sentences = iv.docs_tokens_encoded.length ∧
      sdl.len? = pyFloorDiv (iv.docs_tokens_encoded.length : Int) bs := by
  have hzip := zip_ne_nil_of_ne_nil hio hoo
  have hmk := mk?_some_ok iv ov bs io oo seed hzip
  refine ⟨_, hmk, rfl, rfl, ?_, rfl, rfl⟩
  show List.Perm (List.zip ((npShuffle seed (List.zip io oo)).map Prod.fst)
    ((npShuffle seed (List.zip io oo)).map Prod.snd)) (List.zip io oo)
  rw [zip_map_fst_snd]
  exact npShuffle_perm seed _

/-- Witness for C9 (amended): a one-document vocabulary with two-element
overrides — iteration data comes from the overrides while `N` stays 1. -/
theorem C9_witness :
    ∃ sdl, SmartDataLoader.mk? ⟨[[7]], 0⟩ ⟨[[8]], 0⟩ 1 (some [[1], [2]]) (some [[3], [4]]) 0
        = Except.ok sdl ∧
      sdl.input_docs = (npShuffle 0 (List.zip [[1], [2]] [[3], [4]])).map Prod.fst ∧
      sdl.output_docs = (npShuffle 0 (List.zip [[1], [2]] [[3], [4]])).map Prod.snd ∧
      List.Perm (List.zip sdl.input_docs sdl.output_docs)
        (List.zip [[1], [2]] [[3], [4]]) ∧
      sdl.n_sentences = 1 ∧
      sdl.len? = pyFloorDiv 1 1 :=
  C9_amended_overrides ⟨[[7]], 0⟩ ⟨[[8]], 0⟩ 1 [[1], [2]] [[3], [4]] 0
    (by decide) (by decide)

/-- Claim C10: both sides are padded with the INPUT vocabulary's pad-token
id.  The output vocabulary's pad id is never consulted: constructions that
differ only in the output vocabulary's `PAD_TOKEN` are indistinguishable,
the loader's `PAD_TOKEN` equals the input vocabulary's, and `_build_tensor`
is applied with that single id to input and output sides alike. -/
theorem C10_pad_token_source (iv ov ov2 : Vocabulary)
    (hdocs : ov.docs_tokens_encoded = ov2.docs_tokens_encoded)
    (bs : Int) (io oo : Option (List (List Int))) (seed : Nat) :
    SmartDataLoader.mk? iv ov bs io oo seed = SmartDataLoader.mk? iv ov2 bs io oo seed ∧
    ∀ sdl, SmartDataLoader.mk? iv ov bs io oo seed = Except.ok sdl →
      sdl.PAD_TOKEN = iv.PAD_TOKEN ∧
      sdl.iterTensors = Except.map (List.map (buildTensor iv.PAD_TOKEN))
        sdl.iterRawBatches := by
  have hmk : SmartDataLoader.mk? iv ov bs io oo seed
      = SmartDataLoader.mk? iv ov2 bs io oo seed := by
    unfold SmartDataLoader.mk?
    rw [hdocs]
  refine ⟨hmk, ?_⟩
  intro sdl h
  have hpad : sdl.PAD_TOKEN = iv.PAD_TOKEN := by
    unfold SmartDataLoader.mk? at h
    dsimp only at h
    split at h
    · simp at h
    · injection h with h'
      subst h'
      rfl
  refine ⟨hpad, ?_⟩
  show Except.map (List.map (buildTensor sdl.PAD_TOKEN)) sdl.iterRawBatches = _
  rw [hpad]

/-- Witness for C10: input pad id 0 against output vocabularies with pad
ids 99 and 7 — the construction results coincide and the loader pads with
0 on both sides. -/
theorem C10_witness :
    SmartDataLoader.mk? ⟨[[4]], 0⟩ ⟨[[5]], 99⟩ 1 none none 0
        = SmartDataLoader.mk? ⟨[[4]], 0⟩ ⟨[[5]], 7⟩ 1 none none 0 ∧
    ∀ sdl, SmartDataLoader.mk? ⟨[[4]], 0⟩ ⟨[[5]], 99⟩ 1 none none 0 = Except.ok sdl →
      sdl.PAD_TOKEN = 0 ∧
      sdl.iterTensors = Except.map (List.map (buildTensor 0)) sdl.iterRawBatches :=
  C10_pad_token_source ⟨[[4]], 0⟩ ⟨[[5]], 99⟩ ⟨[[5]], 7⟩ rfl 1 none none 0
